/-
Verification of `src/mos-platform/common/lib/cxa_abi.cc` (llvm-mos-sdk).

The file implements, for a single-threaded bare-metal target:
  * `__cxa_guard_acquire` / `__cxa_guard_release` over 8-byte guard tokens;
  * a block-chained registry of `__cxa_atexit` finalizers
    (`RegistrationList`, blocks of 32 `ExitFunctionStorage` entries);
  * the shutdown hook `CxaFinalizer` armed by `__cxa_atexit`.

Shallow embedding conventions:
  * A function pointer and an opaque `void *` are modelled as abstract
    addresses (`Nat`); "invoking" a finalizer appends its entry to a trace
    list, in invocation order.
  * A C `uint8_t` counter is a `Nat` with `% 256` on increment.
  * The 32-entry C array `m_funcs` is modelled as a total map
    `Nat → ExitFunctionStorage`; indices `≥ 32` stand for the memory that an
    out-of-bounds access would touch.
  * `new (std::nothrow) FnNode{m_list}` is modelled by an `Option FnBlock`
    oracle: `none` is allocation failure; `some b` is success where `b` is the
    content of the `FnBlock` base subobject of the fresh node.  In the source,
    `FnNode`'s constructor `FnNode(FnBlock *next) : m_next{next} {}` mentions
    only `m_next` in its mem-initializer list, so the `FnBlock` base class is
    default-initialized: its implicitly-defined default constructor leaves
    `m_funcs` and `m_sz` with indeterminate values.  The oracle therefore
    supplies an arbitrary `FnBlock`, not a zeroed one.  (The static
    `m_tail{}` on the other hand is value-initialized, i.e. zeroed.)
  * The `m_next` links of the heap nodes are represented by the order of a
    `List FnBlock`: head of the list = `m_list`, each node linked to the one
    after it, the last node linked to the static `m_tail`.
-/
import Mathlib

set_option autoImplicit false
set_option maxRecDepth 8000

namespace CxaAbi

/-! ## One-time-initialization guards (`__cxa_guard_acquire` / `release`) -/

/-- An 8-byte guard token.  `bytes 0` is the byte at the lowest address
(the one the source accesses through `reinterpret_cast<uint8_t *>`). -/
structure GuardObject where
  bytes : Fin 8 → Fin 256
  deriving DecidableEq

/-- Model of `__cxa_guard_acquire`: return 1 ("should run the initializer") iff the
lowest-addressed byte of the guard object is zero; no write is performed. -/
def __cxa_guard_acquire (guard_object : GuardObject) : Int :=
  if guard_object.bytes 0 = 0 then 1 else 0

/-- Model of `__cxa_guard_release`: set the lowest-addressed byte to the non-zero
value 1, leaving the other seven bytes untouched. -/
def __cxa_guard_release (guard_object : GuardObject) : GuardObject :=
  { guard_object with bytes := Function.update guard_object.bytes 0 1 }

/-! ## The finalizer registry (`RegistrationList`) -/

/-- One registered exit function: a callback pointer and its opaque
argument, both abstract addresses. -/
structure ExitFunctionStorage where
  m_functionptr : Nat
  m_userdata : Nat
  deriving DecidableEq, Repr

/-- Constant `FnBlock::BLOCK_SZ`: each block has space for 32 registrations. -/
def BLOCK_SZ : Nat := 32

/-- A block of registrations: the 32-slot array `m_funcs` (total map on
`Nat`; indices `≥ BLOCK_SZ` model the memory past the array) and the
`uint8_t` fill count `m_sz`. -/
structure FnBlock where
  m_funcs : Nat → ExitFunctionStorage
  m_sz : Nat

/-- Model of `FnBlock::full`. -/
def FnBlock.full (b : FnBlock) : Bool :=
  b.m_sz == BLOCK_SZ

/-- Model of `FnBlock::push_front`: `m_funcs[m_sz++] = newfn` (the `uint8_t`
increment wraps at 256). -/
def FnBlock.push_front (b : FnBlock) (newfn : ExitFunctionStorage) : FnBlock :=
  { m_funcs := Function.update b.m_funcs b.m_sz newfn
    m_sz := (b.m_sz + 1) % 256 }

/-- The loop body of `FnBlock::run_all`, peeled on the counter: invoke
`m_funcs[i-1]` for `i = n` down to `1`.  The result is the trace of
invoked entries, in invocation order. -/
def FnBlock.runAllAux (g : Nat → ExitFunctionStorage) : Nat → List ExitFunctionStorage
  | 0 => []
  | i + 1 => g i :: FnBlock.runAllAux g i

/-- Model of `FnBlock::run_all`: invoke the stored entries from index `m_sz - 1`
down to `0`. -/
def FnBlock.run_all (b : FnBlock) : List ExitFunctionStorage :=
  FnBlock.runAllAux b.m_funcs b.m_sz

/-- The registry: `m_list` is the chain of heap-allocated `FnNode`s
(newest first; the last one links to the static tail), `m_tail` the
statically-allocated terminal block. -/
structure RegistrationList where
  m_list : List FnBlock
  m_tail : FnBlock

/-- The block `m_list` points at: the newest heap node, or the static tail
when no node was ever allocated. -/
def RegistrationList.currentBlock : RegistrationList → FnBlock
  | ⟨[], tail⟩ => tail
  | ⟨b :: _, _⟩ => b

/-- Write back through the `m_list` pointer: replace the block
`currentBlock` designates. -/
def RegistrationList.setCurrent : RegistrationList → FnBlock → RegistrationList
  | ⟨[], _⟩, b => ⟨[], b⟩
  | ⟨_ :: rest, tail⟩, b => ⟨b :: rest, tail⟩

/-- Model of `RegistrationList::push_front`.  `alloc` is the allocation oracle for
`new (std::nothrow) FnNode{m_list}` (see the header comment): `none` means
the allocation fails, `some fresh` means it succeeds and the
default-initialized `FnBlock` base of the new node holds `fresh`. -/
def RegistrationList.push_front (st : RegistrationList)
    (new_exit : ExitFunctionStorage) (alloc : Option FnBlock) :
    Bool × RegistrationList :=
  let current_block := st.currentBlock
  if current_block.full then
    match alloc with
    | none => (false, st)
    | some fresh => (true, ⟨fresh.push_front new_exit :: st.m_list, st.m_tail⟩)
  else
    (true, st.setCurrent (current_block.push_front new_exit))

/-- The `while (m_list != &m_tail)` loop of `run_all_exits`: run each heap
node and advance down the chain. -/
def RegistrationList.runLoop : List FnBlock → List ExitFunctionStorage
  | [] => []
  | b :: rest => b.run_all ++ RegistrationList.runLoop rest

/-- Model of `RegistrationList::run_all_exits`: run every heap node newest-first,
then the static tail.  The result is the trace of invoked entries, in
invocation order (the post-state, `m_list == &m_tail` with the nodes
leaked, is not needed by any claim). -/
def RegistrationList.run_all_exits (st : RegistrationList) : List ExitFunctionStorage :=
  RegistrationList.runLoop st.m_list ++ st.m_tail.run_all

/-- The zero `ExitFunctionStorage` (null pointers), the content of
zero-initialized static storage. -/
def zeroEntry : ExitFunctionStorage := ⟨0, 0⟩

/-- Model of `RegistrationList::m_tail` (brace-initialized) as value-initialized static storage:
all-zero array, `m_sz == 0`. -/
def initialTail : FnBlock := ⟨fun _ => zeroEntry, 0⟩

/-- The registry at program start: no heap node, `m_list == &m_tail`,
zeroed tail. -/
def initialList : RegistrationList := ⟨[], initialTail⟩

/-- Fold a sequence of `push_front` calls, each with its own entry and its
own allocation-oracle answer; returns the list of success results and the
final registry. -/
def RegistrationList.pushAll (st : RegistrationList)
    (ps : List (ExitFunctionStorage × Option FnBlock)) :
    List Bool × RegistrationList :=
  match ps with
  | [] => ([], st)
  | (e, a) :: rest =>
    let r := st.push_front e a
    let rs := RegistrationList.pushAll r.2 rest
    (r.1 :: rs.1, rs.2)

/-! ## The shutdown hook (`CxaFinalizer`) and `__cxa_atexit` -/

/-- The two routines the `.fini_array` slot `CxaFinalizer` can point at. -/
inductive FinalizerPtr where
  | NoOpFinalize
  | finalize_noargs
  deriving DecidableEq, Repr

/-- The process-wide state touched by `__cxa_atexit`: the `CxaFinalizer`
slot and the registry. -/
structure CxaState where
  CxaFinalizer : FinalizerPtr
  list : RegistrationList

/-- The state at program start: `CxaFinalizer = NoOpFinalize`, empty
registry. -/
def initialCxaState : CxaState := ⟨FinalizerPtr.NoOpFinalize, initialList⟩

/-- Model of `__cxa_atexit(f, p, dso_handle)`: arm `CxaFinalizer` unconditionally,
then register `{f, p}`; return 0 on success and -1 on failure.
`dso_handle` is accepted and ignored. -/
def __cxa_atexit (st : CxaState) (f p dso_handle : Nat)
    (alloc : Option FnBlock) : Int × CxaState :=
  let st := { st with CxaFinalizer := FinalizerPtr.finalize_noargs }
  let r := st.list.push_front ⟨f, p⟩ alloc
  (if r.1 then 0 else -1, { st with list := r.2 })

/-- Model of `_fini` firing the `CxaFinalizer` slot exactly once: a no-op before
arming, one full `run_all_exits` traversal (`__finalize_noargs`) after.
The result is the trace of invoked finalizer entries. -/
def fireHook (st : CxaState) : List ExitFunctionStorage :=
  match st.CxaFinalizer with
  | FinalizerPtr.NoOpFinalize => []
  | FinalizerPtr.finalize_noargs => st.list.run_all_exits

/-! ## Concrete states used to exhibit the uninitialized-`FnBlock` bug -/

/-- A sequence of 33 distinct registrations `⟨i+1, 0⟩`, every allocation request answered
with a fresh node whose indeterminate `FnBlock` base happens to hold
`m_sz = 255` (e.g. 0xFF-filled heap memory) — a value C++ permits, since
the base is default-initialized. -/
def demoEntries : List ExitFunctionStorage :=
  (List.range 33).map fun i => ⟨i + 1, 0⟩

/-- An indeterminate fresh `FnBlock` whose `m_sz` byte reads 255. -/
def garbage255 : FnBlock := ⟨fun _ => ⟨999, 999⟩, 255⟩

/-- An indeterminate fresh `FnBlock` whose `m_sz` byte reads 40. -/
def garbage40 : FnBlock := ⟨fun _ => ⟨999, 999⟩, 40⟩

/-- The 33 registrations of `demoEntries` with the `garbage255` oracle. -/
def demoPushes : List (ExitFunctionStorage × Option FnBlock) :=
  demoEntries.map fun e => (e, some garbage255)

/-- A sequence of 32 registrations filling the tail, then a 33rd whose allocation
succeeds with the `garbage40` fresh node. -/
def demoPushes40 : List (ExitFunctionStorage × Option FnBlock) :=
  ((List.range 32).map fun i => ((⟨i + 1, 0⟩ : ExitFunctionStorage), none))
    ++ [(⟨33, 0⟩, some garbage40)]

/-! ## Proof devices (not part of the embedding) -/

/-- Specification device: the array map obtained from `f` by storing the
entries of `es` at consecutive indices `k, k+1, …`.  Characterizes the
`m_funcs` map after a run of in-block appends. -/
def fillFrom : List ExitFunctionStorage → (Nat → ExitFunctionStorage) → Nat → Nat → ExitFunctionStorage
  | [], f, _ => f
  | e :: es, f, k => fillFrom es (Function.update f k e) (k + 1)

/-- A registry whose static tail is full and which has no heap node. -/
def fullTailState : RegistrationList := ⟨[], ⟨fun _ => zeroEntry, 32⟩⟩

/-- A guard token with all eight bytes zero. -/
def guardZero : GuardObject := ⟨fun _ => 0⟩

/-- A guard token whose low byte is zero and whose other bytes are `5`. -/
def guardPadded : GuardObject := ⟨fun j => if j = 0 then 0 else 5⟩

/-! ## Helper lemmas -/

/-- The loop of `run_all` visits the stored entries in reverse index
order. -/
theorem runAllAux_eq (g : Nat → ExitFunctionStorage) (n : Nat) :
    FnBlock.runAllAux g n = ((List.range n).map g).reverse := by
  induction n with
  | zero => rfl
  | succ m ih =>
    rw [FnBlock.runAllAux, ih, List.range_succ, List.map_append, List.reverse_append]
    rfl

/-- Lemma: `fillFrom` leaves indices below the write window unchanged. -/
theorem fillFrom_lt (es : List ExitFunctionStorage) :
    ∀ (f : Nat → ExitFunctionStorage) (k j : Nat), j < k → fillFrom es f k j = f j := by
  induction es with
  | nil => intro f k j _; rfl
  | cons e tl ih =>
    intro f k j hj
    rw [fillFrom, ih _ (k + 1) j (by omega)]
    exact Function.update_noteq (Nat.ne_of_lt hj) e f

/-- Lemma: `fillFrom` stores the `m`-th entry of `es` at index `k + m`. -/
theorem fillFrom_get (es : List ExitFunctionStorage) :
    ∀ (f : Nat → ExitFunctionStorage) (k m : Nat) (h : m < es.length),
      fillFrom es f k (k + m) = es.get ⟨m, h⟩ := by
  induction es with
  | nil => intro _ _ m h; exact absurd h (by simp)
  | cons e tl ih =>
    intro f k m h
    match m with
    | 0 =>
      rw [fillFrom, show k + 0 = k from rfl,
        fillFrom_lt tl _ (k + 1) k (Nat.lt_succ_self k)]
      simp
    | m' + 1 =>
      rw [fillFrom, show k + (m' + 1) = (k + 1) + m' by omega,
        ih _ (k + 1) m' (by simpa using h)]
      rfl

/-- Reading back the whole window written by `fillFrom` returns `es`. -/
theorem map_range_fillFrom (es : List ExitFunctionStorage) (f : Nat → ExitFunctionStorage) :
    (List.range es.length).map (fillFrom es f 0) = es := by
  apply List.ext_get
  · simp
  · intro i h1 h2
    simp only [List.get_map, List.get_range]
    have h3 : i < es.length := by simpa using h2
    have := fillFrom_get es f 0 i h3
    rwa [Nat.zero_add] at this

/-- A run of `push_front` calls that fits inside one block `⟨f, k⟩` (no
heap node present) succeeds at every step, allocates nothing, and stores
the entries at indices `k, k+1, …`. -/
theorem pushAll_fill (ps : List (ExitFunctionStorage × Option FnBlock)) :
    ∀ (f : Nat → ExitFunctionStorage) (k : Nat), k + ps.length ≤ 32 →
      RegistrationList.pushAll ⟨[], ⟨f, k⟩⟩ ps =
        (List.replicate ps.length true,
          ⟨[], ⟨fillFrom (ps.map Prod.fst) f k, k + ps.length⟩⟩) := by
  induction ps with
  | nil =>
    intro f k _
    simp [RegistrationList.pushAll, fillFrom]
  | cons p rest ih =>
    intro f k hk
    obtain ⟨e, a⟩ := p
    have hlen : k + (rest.length + 1) ≤ 32 := by simpa using hk
    have hstep : (k + 1) + rest.length ≤ 32 := by omega
    have hfull : FnBlock.full ⟨f, k⟩ = false := by
      have hne : k ≠ 32 := by omega
      simp [FnBlock.full, BLOCK_SZ, hne]
    have hpush : RegistrationList.push_front ⟨[], ⟨f, k⟩⟩ e a =
        (true, ⟨[], ⟨Function.update f k e, k + 1⟩⟩) := by
      simp [RegistrationList.push_front, RegistrationList.currentBlock, hfull,
        RegistrationList.setCurrent, FnBlock.push_front, Nat.mod_eq_of_lt (by omega : k + 1 < 256)]
    simp only [RegistrationList.pushAll, hpush, List.length_cons, List.map_cons,
      fillFrom, List.replicate_succ]
    rw [ih (Function.update f k e) (k + 1) hstep,
      show k + (rest.length + 1) = (k + 1) + rest.length by omega]

/-- When the current head block is full and allocation fails, `push_front`
reports failure and returns the registry unchanged. -/
theorem push_front_full_fail (st : RegistrationList) (e : ExitFunctionStorage)
    (h : st.currentBlock.full = true) :
    st.push_front e none = (false, st) := by
  simp [RegistrationList.push_front, h]

/-- Lemma: `pushAll` over an appended sequence composes. -/
theorem pushAll_append (ps qs : List (ExitFunctionStorage × Option FnBlock)) :
    ∀ st : RegistrationList,
      RegistrationList.pushAll st (ps ++ qs) =
        ((RegistrationList.pushAll st ps).1 ++
            (RegistrationList.pushAll (RegistrationList.pushAll st ps).2 qs).1,
          (RegistrationList.pushAll (RegistrationList.pushAll st ps).2 qs).2) := by
  induction ps with
  | nil => intro st; simp [RegistrationList.pushAll]
  | cons p rest ih =>
    intro st
    obtain ⟨e, a⟩ := p
    simp [RegistrationList.pushAll, ih]

/-- Traversal of a registry whose only block holds exactly the entries of
`es` (written from index 0) yields `es` reversed. -/
theorem run_all_exits_fill (es : List ExitFunctionStorage) (f : Nat → ExitFunctionStorage) :
    RegistrationList.run_all_exits ⟨[], ⟨fillFrom es f 0, es.length⟩⟩ = es.reverse := by
  simp [RegistrationList.run_all_exits, RegistrationList.runLoop, FnBlock.run_all,
    runAllAux_eq, map_range_fillFrom]

/-! ## Claims -/

/-- C2: when the current head block is full and the allocation of a new
block fails, `RegistrationList::push_front` returns failure and leaves the
whole registry — head chain, every block's count, every stored entry —
exactly as it was. -/
theorem C2_allocation_failure_atomicity (st : RegistrationList) (e : ExitFunctionStorage)
    (h : st.currentBlock.full = true) :
    st.push_front e none = (false, st) :=
  push_front_full_fail st e h

/-- Witness for C2 at a registry whose static tail is full. -/
theorem C2_witness :
    RegistrationList.push_front fullTailState zeroEntry none = (false, fullTailState) :=
  C2_allocation_failure_atomicity fullTailState zeroEntry (by decide)

/-- C3: starting from the initial zero-registration state, the first 32
(per-block capacity) registrations all succeed and never trigger an
allocation: whatever each call's allocation oracle would answer — in
particular an unconditionally failing one — the heap chain stays empty
and the 32 entries end up in the statically-allocated terminal block, in
registration order. -/
theorem C3_no_allocation_floor (ps : List (ExitFunctionStorage × Option FnBlock))
    (h : ps.length = 32) :
    (RegistrationList.pushAll initialList ps).1 = List.replicate 32 true ∧
    (RegistrationList.pushAll initialList ps).2.m_list = [] ∧
    (RegistrationList.pushAll initialList ps).2.m_tail.m_sz = 32 ∧
    ∀ i : Fin 32,
      (RegistrationList.pushAll initialList ps).2.m_tail.m_funcs i =
        (ps.get (Fin.cast h.symm i)).1 := by
  have hfill := pushAll_fill ps (fun _ => zeroEntry) 0 (by omega)
  rw [show initialList = ⟨[], ⟨fun _ => zeroEntry, 0⟩⟩ from rfl, hfill]
  refine ⟨by rw [h], rfl, by rw [Nat.zero_add, h], ?_⟩
  intro i
  have hm : (i : Nat) < (ps.map Prod.fst).length := by
    simp only [List.length_map, h]
    exact i.isLt
  have hg := fillFrom_get (ps.map Prod.fst) (fun _ => zeroEntry) 0 i hm
  rw [Nat.zero_add] at hg
  show fillFrom (ps.map Prod.fst) (fun _ => zeroEntry) 0 (i : Nat) =
    (ps.get (Fin.cast h.symm i)).1
  rw [hg]
  simp [List.get_map, Fin.cast]

/-- Witness for C3 at 32 concrete registrations. -/
theorem C3_witness :
    (RegistrationList.pushAll initialList
        ((List.range 32).map fun i => ((⟨i + 1, 0⟩ : ExitFunctionStorage), none))).1 =
      List.replicate 32 true :=
  (C3_no_allocation_floor ((List.range 32).map fun i => (⟨i + 1, 0⟩, none)) (by simp)).1

/-- C4: with the allocator failing unconditionally, the 33rd registration
returns failure, and a subsequent `run_all_exits` still invokes exactly
the first 32 registered entries — each with its stored userdata — in
reverse registration order. -/
theorem C4_graceful_exhaustion (es : List ExitFunctionStorage) (h : es.length = 33) :
    (RegistrationList.pushAll initialList (es.map fun e => (e, none))).1 =
      List.replicate 32 true ++ [false] ∧
    RegistrationList.run_all_exits
        (RegistrationList.pushAll initialList (es.map fun e => (e, none))).2 =
      (es.take 32).reverse := by
  obtain ⟨e33, h33⟩ : ∃ a, es.drop 32 = [a] :=
    List.length_eq_one.mp (by simp [List.length_drop, h])
  have hsplit : es.map (fun e => (e, (none : Option FnBlock))) =
      ((es.take 32).map fun e => (e, (none : Option FnBlock))) ++ [(e33, none)] := by
    conv_lhs => rw [← List.take_append_drop 32 es]
    rw [List.map_append, h33]
    rfl
  have htake : (es.take 32).length = 32 := by simp [List.length_take, h]
  have hfill := pushAll_fill ((es.take 32).map fun e => (e, (none : Option FnBlock)))
    (fun _ => zeroEntry) 0 (by simp [List.length_map, htake])
  have hmaps : (((es.take 32).map fun e => (e, (none : Option FnBlock))).map Prod.fst) =
      es.take 32 := by
    induction es.take 32 with
    | nil => rfl
    | cons x xs ih => simp only [List.map_cons, ih]
  rw [hmaps] at hfill
  have hlen1 : (((es.take 32).map fun e => (e, (none : Option FnBlock)))).length = 32 := by
    simp only [List.length_map, htake]
  have hfail : RegistrationList.push_front
      ⟨[], ⟨fillFrom (es.take 32) (fun _ => zeroEntry) 0, 0 + 32⟩⟩ e33 none =
      (false, ⟨[], ⟨fillFrom (es.take 32) (fun _ => zeroEntry) 0, 0 + 32⟩⟩) :=
    push_front_full_fail _ e33 (by rfl)
  rw [show initialList = ⟨[], ⟨fun _ => zeroEntry, 0⟩⟩ from rfl, hsplit, pushAll_append,
    hfill, hlen1]
  simp only [RegistrationList.pushAll, hfail]
  refine ⟨trivial, ?_⟩
  have := run_all_exits_fill (es.take 32) (fun _ => zeroEntry)
  rw [htake] at this
  exact this

/-- Witness for C4 at 33 concrete registrations. -/
theorem C4_witness :
    (RegistrationList.pushAll initialList
        (((List.range 33).map fun i => (⟨i + 1, 0⟩ : ExitFunctionStorage)).map
          fun e => (e, none))).1 =
      List.replicate 32 true ++ [false] :=
  (C4_graceful_exhaustion ((List.range 33).map fun i => ⟨i + 1, 0⟩) (by simp)).1

/-- C5: `__cxa_guard_acquire` returns 1 ("should run the initializer") iff
the token's lowest-addressed byte is zero, and 0 otherwise; after
`__cxa_guard_release` — with or without a prior acquire — every
subsequent acquire on that token returns 0. -/
theorem C5_guard_one_shot (g : GuardObject) :
    (__cxa_guard_acquire g = 1 ↔ g.bytes 0 = 0) ∧
    (__cxa_guard_acquire g = 0 ↔ g.bytes 0 ≠ 0) ∧
    __cxa_guard_acquire (__cxa_guard_release g) = 0 := by
  by_cases hb : g.bytes 0 = 0 <;>
    simp [__cxa_guard_acquire, __cxa_guard_release, hb]

/-- C6: `__cxa_guard_release` writes only the lowest-addressed byte of the
8-byte token, and `__cxa_guard_acquire` reads only that byte (its result
is determined by it, and it writes nothing). -/
theorem C6_guard_frame (g g' : GuardObject) (i : Fin 8) (hi : i ≠ 0) :
    (__cxa_guard_release g).bytes i = g.bytes i ∧
    (g.bytes 0 = g'.bytes 0 → __cxa_guard_acquire g = __cxa_guard_acquire g') := by
  constructor
  · simp [__cxa_guard_release, Function.update_noteq hi]
  · intro hb
    simp [__cxa_guard_acquire, hb]

/-- Witness for C6 at a concrete token and byte index 3. -/
theorem C6_witness :
    (__cxa_guard_release guardZero).bytes 3 = guardZero.bytes 3 :=
  (C6_guard_frame guardZero guardPadded 3 (by decide)).1

/-- C7: `__cxa_atexit` returns 0 iff the underlying
`RegistrationList::push_front` succeeds and a non-zero value iff it
fails; the `dso_handle` argument affects neither the result nor any
state, and the registry is updated exactly as `push_front` leaves it. -/
theorem C7_atexit_return_convention (st : CxaState) (f p dso dso' : Nat)
    (alloc : Option FnBlock) :
    ((__cxa_atexit st f p dso alloc).1 = 0 ↔
      (st.list.push_front ⟨f, p⟩ alloc).1 = true) ∧
    ((__cxa_atexit st f p dso alloc).1 ≠ 0 ↔
      (st.list.push_front ⟨f, p⟩ alloc).1 = false) ∧
    __cxa_atexit st f p dso alloc = __cxa_atexit st f p dso' alloc ∧
    (__cxa_atexit st f p dso alloc).2.list = (st.list.push_front ⟨f, p⟩ alloc).2 := by
  cases hr : (st.list.push_front ⟨f, p⟩ alloc).1 <;>
    simp [__cxa_atexit, hr]

/-- C8: before any `__cxa_atexit` call the `CxaFinalizer` hook points at
the no-op routine (so firing it runs nothing); every `__cxa_atexit` call
— succeeding or failing, at any state — re-arms it to
`__finalize_noargs`, and firing the armed hook once performs exactly one
`run_all_exits` traversal of the registry. -/
theorem C8_hook_arming (st : CxaState) (f p dso : Nat) (alloc : Option FnBlock) :
    initialCxaState.CxaFinalizer = FinalizerPtr.NoOpFinalize ∧
    fireHook initialCxaState = [] ∧
    (__cxa_atexit st f p dso alloc).2.CxaFinalizer = FinalizerPtr.finalize_noargs ∧
    fireHook (__cxa_atexit st f p dso alloc).2 =
      RegistrationList.run_all_exits (__cxa_atexit st f p dso alloc).2.list := by
  refine ⟨rfl, rfl, rfl, rfl⟩

/-- C9: a registry with no heap node and a zero count in the terminal
block — in particular the initial zero-registration state — traverses to
the empty trace: no finalizer is invoked, nothing is allocated
(`run_all_exits` has no allocation path), and the routine returns. -/
theorem C9_zero_registration_noop (st : RegistrationList)
    (h1 : st.m_list = []) (h2 : st.m_tail.m_sz = 0) :
    RegistrationList.run_all_exits st = [] := by
  simp [RegistrationList.run_all_exits, h1, h2, RegistrationList.runLoop,
    FnBlock.run_all, FnBlock.runAllAux]

/-- Witness for C9 at the initial state. -/
theorem C9_witness : RegistrationList.run_all_exits initialList = [] :=
  C9_zero_registration_noop initialList rfl rfl

/-- C1 (bug): 33 registrations with distinct markers all succeed, the
33rd landing in a freshly allocated node whose default-initialized
`FnBlock` base holds the indeterminate byte `m_sz = 255` (e.g. 0xFF-filled
heap memory); `m_funcs[255] = e; m_sz++` then wraps `m_sz` to 0, so the
traversal never invokes the last-registered callback at all — the trace
is not the reverse of the registration order. -/
theorem C1_traversal_order_lost :
    (RegistrationList.pushAll initialList demoPushes).1 = List.replicate 33 true ∧
    (⟨33, 0⟩ : ExitFunctionStorage) ∈ demoEntries ∧
    (⟨33, 0⟩ : ExitFunctionStorage) ∉
      RegistrationList.run_all_exits (RegistrationList.pushAll initialList demoPushes).2 ∧
    RegistrationList.run_all_exits (RegistrationList.pushAll initialList demoPushes).2 ≠
      demoEntries.reverse := by
  decide

/-- C10 (bug): after 32 registrations fill the static block, a 33rd whose
allocation succeeds appends through the fresh node's indeterminate count
(here the byte 40): the entry is written at `m_funcs[40]` — past the end
of the 32-slot array — and the block's count becomes 41 > 32, violating
the claimed in-bounds invariant. -/
theorem C10_out_of_bounds_append :
    (RegistrationList.pushAll initialList demoPushes40).1 = List.replicate 33 true ∧
    (RegistrationList.pushAll initialList demoPushes40).2.m_list.map FnBlock.m_sz = [41] ∧
    (RegistrationList.pushAll initialList demoPushes40).2.m_list.map
        (fun b => b.m_funcs 40) = [⟨33, 0⟩] := by
  decide

end CxaAbi
